import Mathlib

/-!
Shallow embedding of the ledger / schema-migration core of the spa
management system (src/app.py, src/aws_utils.py, src/migrate_fixed_v2.py,
src/migrate_fixed_v3.py), together with theorems settling the frozen
claims about it.

Modelling conventions:
- DynamoDB collections are association lists; `put_item` is an upsert by
  the table's key (replace the matching element, else append).
- Monetary amounts are rationals (the code uses Python `Decimal`).
- `datetime.now().isoformat()` is modelled by the constant `nowString`
  (no claim depends on actual clock values).
- `uuid.uuid4()` is modelled by a counter threaded through the state
  (`uuidName n` for the n-th draw); distinct draws give distinct ids,
  which encodes uuid4's practical global uniqueness.
- A store call that raises `ClientError` is modelled by the failure
  branch the surrounding `except` handler takes.
-/

namespace SpaMgt

/-- A member record as written by `AWSClient.add_member`
(src/aws_utils.py lines 76-89). -/
structure Member where
  card_id : String
  name : String
  top_up_date : String
  balance : Rat
  created_at : String
  deriving Repr, DecidableEq

/-- A transaction record as written by `AWSClient.add_transaction`
(src/aws_utils.py lines 158-173). `signature_s3_key` and
`service_notes` are `none` when the caller passed Python `None`. -/
structure Txn where
  transaction_id : String
  member_id : String
  amount : Rat
  timestamp : String
  signature_s3_key : Option String
  service_notes : Option String
  deriving Repr, DecidableEq

/-- The two live collections plus the uuid counter: members table
(keyed by `card_id`) and transactions table.  Transactions are written
under freshly drawn uuid keys, so live writes never overwrite an
existing transaction and the table is modelled as an append list. -/
structure Store where
  members : List Member
  txns : List Txn
  nextId : Nat
  deriving Repr, DecidableEq

/-- The constant standing for `datetime.now().isoformat()`. -/
def nowString : String := "2025-01-01T00:00:00"

/-- The n-th value drawn from `uuid.uuid4()`. -/
def uuidName (n : Nat) : String := "uuid-" ++ toString n

/-- The empty store. -/
def emptyStore : Store := ⟨[], [], 0⟩

/-- Lookup of a member by card id (the `get_item` read underlying
`AWSClient.get_member`, src/aws_utils.py line 94). -/
def lookupMember (ms : List Member) (card : String) : Option Member :=
  ms.find? (fun m => m.card_id == card)

/-- Upsert into the members table: `table.put_item` keyed by `card_id`. -/
def putMember (ms : List Member) (m : Member) : List Member :=
  if ms.any (fun x => x.card_id == m.card_id) then
    ms.map (fun x => if x.card_id == m.card_id then m else x)
  else
    ms ++ [m]

/-- `AWSClient.get_member` (src/aws_utils.py lines 91-98): returns the
item, or `None` both when the item is absent and when the store call
raises `ClientError` (the `except` branch also returns `None`).
`storeFails` selects the `ClientError` branch. -/
def get_member (s : Store) (storeFails : Bool) (card : String) : Option Member :=
  if storeFails then none else lookupMember s.members card

/-- `AWSClient.add_member` (src/aws_utils.py lines 76-89): an
unconditional `put_item` (upsert) of the new member record with
`created_at = datetime.now()`. -/
def add_member (s : Store) (card name date : String) (balance : Rat) : Store :=
  { s with members := putMember s.members ⟨card, name, date, balance, nowString⟩ }

/-- `AWSClient.add_transaction` (src/aws_utils.py lines 158-173):
draws a fresh uuid, writes the record, returns the transaction id. -/
def add_transaction (s : Store) (member_id : String) (amount : Rat)
    (signature_key service_notes : Option String) : String × Store :=
  let tid := uuidName s.nextId
  (tid,
    { s with
      txns := s.txns ++ [⟨tid, member_id, amount, nowString, signature_key, service_notes⟩],
      nextId := s.nextId + 1 })

/-- `AWSClient.update_member_balance` (src/aws_utils.py lines 144-156):
`SET balance = balance + :val`.  When no member record with that key
holds a `balance` attribute the update expression raises `ClientError`
and the method returns `None`; otherwise it returns the new balance. -/
def update_member_balance (s : Store) (card : String) (amount : Rat) :
    Option (Rat × Store) :=
  match lookupMember s.members card with
  | none => none
  | some m =>
      some (m.balance + amount,
        { s with members := putMember s.members { m with balance := m.balance + amount } })

/-- `AWSClient.get_member_transactions` (src/aws_utils.py lines
175-185): query of the transactions collection by `member_id`. -/
def get_member_transactions (s : Store) (member_id : String) : List Txn :=
  s.txns.filter (fun t => t.member_id == member_id)

/-- `AWSClient.delete_member` (src/aws_utils.py lines 118-125):
`delete_item` on the members table only. -/
def delete_member (s : Store) (card : String) : Store :=
  { s with members := s.members.filter (fun m => !(m.card_id == card)) }

/-- Errors surfaced by the app handlers, plus `UnknownMember` from the
spec's error taxonomy (no code path in src/ produces it). -/
inductive LedgerError
  | MissingFields
  | DuplicateMember
  | ZeroAmount
  | BalanceUpdateFailed
  | UnknownMember
  deriving Repr, DecidableEq

/-- The `add_member_form` handler (src/app.py lines 133-162): require
card and name non-empty, check for an existing member via `get_member`
(whose store read may fail, `getFails`), reject on a hit, otherwise
`add_member` and then unconditionally `add_transaction` with
`amount = initial_balance` and notes `初始充值` ("initial top-up"). -/
def add_member_form (getFails : Bool) (s : Store) (card name top_up_date : String)
    (initial_balance : Rat) : Except LedgerError Store :=
  if card = "" ∨ name = "" then .error .MissingFields
  else
    match get_member s getFails card with
    | some _ => .error .DuplicateMember
    | none =>
        let s1 := add_member s card name top_up_date initial_balance
        let s2 := (add_transaction s1 card initial_balance none (some "初始充值")).2
        .ok s2

/-- The submitted branch of the `transaction_form` handler
(src/app.py lines 315-378): reject a zero amount with no writes;
otherwise write the transaction record first and then update the
member balance, reporting a failure (with the transaction already
persisted) when the balance update returns `None`.  The second
component is the store as left behind by the handler. -/
def transaction_form (s : Store) (card : String) (amount : Rat)
    (signature_key service_notes : Option String) :
    Except LedgerError Rat × Store :=
  if amount = 0 then (.error .ZeroAmount, s)
  else
    let (_, s1) := add_transaction s card amount signature_key service_notes
    match update_member_balance s1 card amount with
    | some (newBalance, s2) => (.ok newBalance, s2)
    | none => (.error .BalanceUpdateFailed, s1)

/-- Outcome of the delete cascade: either it ran to completion, or the
loop body raised `AttributeError` (leaving the store as it then was). -/
inductive CascadeOutcome
  | ok (s : Store)
  | attributeError (s : Store)
  deriving Repr, DecidableEq

/-- The `confirm_delete` handler (src/app.py lines 233-253): delete the
member record, then loop over `get_member_transactions` calling
`st.session_state.aws_client.delete_transaction(...)` — a method the
`AWSClient` class (src/aws_utils.py) does not define, so the first
iteration of the loop raises `AttributeError` and no transaction is
ever deleted.  With an empty transaction list the loop body never runs
and the handler completes. -/
def confirm_delete (s : Store) (card : String) : CascadeOutcome :=
  let s1 := delete_member s card
  match get_member_transactions s1 card with
  | [] => .ok s1
  | _ :: _ => .attributeError s1

/-- Sum of the amounts of the transactions owned by `card` (the
derived-view reading of a member's balance). -/
def ownerSum (txns : List Txn) (card : String) : Rat :=
  ((txns.filter (fun t => t.member_id == card)).map (fun t => t.amount)).sum

/-- Sequential execution of `transaction_form` for a list of amounts
(signature and notes left empty), stopping at the first call that does
not succeed.  `some` means every call succeeded. -/
def applyAllOk (s : Store) (card : String) : List Rat → Option Store
  | [] => some s
  | a :: rest =>
      match transaction_form s card a none none with
      | (.ok _, s') => applyAllOk s' card rest
      | (.error _, _) => none

/-- A legacy (`spa-transactions`) item as scanned by the migration
scripts.  `none` stands both for an absent attribute and for a stored
DynamoDB `NULL` (boto3 deserializes both `item.get(...)` outcomes to
Python `None`). -/
structure LegacyItem where
  member_id : Option String
  transaction_id : Option String
  amount : Option Rat
  timestamp : Option String
  signature_s3_key : Option String
  service_notes : Option String
  deriving Repr, DecidableEq

/-- A normalized item written to the `spa-transactions-v2` collection,
keyed by `(member_id, transaction_id)`.  An optional field that is
`none` is absent (the scripts strip `None` values before `put_item`). -/
structure NewItem where
  member_id : String
  transaction_id : String
  amount : Rat
  timestamp : String
  signature_s3_key : Option String
  service_notes : Option String
  deriving Repr, DecidableEq

/-- The composite key of a normalized item. -/
def itemKey (it : NewItem) : String × String :=
  (it.member_id, it.transaction_id)

/-- Upsert into the new collection: `put_item` keyed by
`(member_id, transaction_id)`. -/
def putNewItem (coll : List NewItem) (it : NewItem) : List NewItem :=
  if coll.any (fun x => itemKey x == itemKey it) then
    coll.map (fun x => if itemKey x == itemKey it then it else x)
  else
    coll ++ [it]

/-- Whether `pat` occurs as a contiguous subsequence of `l`
(structural, so that the kernel can evaluate it on literals). -/
def containsSeq (pat : List Char) : List Char → Bool
  | [] => pat.isEmpty
  | c :: rest => List.isPrefixOf pat (c :: rest) || containsSeq pat rest

/-- Python `'signatures/' in key` (substring containment). -/
def hasSignaturesSeg (key : String) : Bool :=
  containsSeq "signatures/".toList key.toList

/-- Python `str.split` on a single separator character, on char
lists: splits at every occurrence, keeping empty pieces. -/
def splitCharList (sep : Char) : List Char → List (List Char)
  | [] => [[]]
  | c :: rest =>
      if c = sep then [] :: splitCharList sep rest
      else
        match splitCharList sep rest with
        | [] => [[c]]
        | g :: gs => (c :: g) :: gs

/-- Python `key.split(sep)` for a one-character separator. -/
def pySplit (s : String) (sep : Char) : List String :=
  (splitCharList sep s.toList).map (fun cs => ⟨cs⟩)

/-- The path separator character used by the signature blob keys. -/
def slash : Char := Char.ofNat 47

/-- Owner resolution of migrate_fixed_v3 (src/migrate_fixed_v3.py lines
120-133): keep a non-`None` `member_id` as is (even if empty); else,
when the signature key is truthy and contains `signatures/`, take the
second `/`-separated segment (when the split somehow has fewer than two
parts the Python variable stays `None` and `str(None)` later yields
`"None"`); else build `unknown_` plus the first 8 characters of
`transaction_id` — which raises (`None[:8]`) when `transaction_id` is
`None`, modelled by the `none` result. -/
def v3ResolveOwner (item : LegacyItem) : Option String :=
  match item.member_id with
  | some m => some m
  | none =>
      match item.signature_s3_key with
      | some k =>
          if k ≠ "" ∧ hasSignaturesSeg k then
            let parts := pySplit k slash
            if parts.length ≥ 2 then some (parts.getD 1 "") else some "None"
          else
            match item.transaction_id with
            | some t => some ("unknown_" ++ t.take 8)
            | none => none
      | none =>
          match item.transaction_id with
          | some t => some ("unknown_" ++ t.take 8)
          | none => none

/-- Python `timestamp or datetime.now().isoformat()` of
migrate_fixed_v3 line 145: the stored timestamp unless it is falsy. -/
def v3Timestamp (item : LegacyItem) : String :=
  match item.timestamp with
  | some t => if t = "" then nowString else t
  | none => nowString

/-- Processing of one legacy item by migrate_fixed_v3 (lines 105-160):
resolve the owner (an exception there is caught and counted as an
error, yielding `none`), generate a fresh uuid when `transaction_id`
is falsy (`None` or empty), default the amount to `0` and the
timestamp to now, and build the normalized item.  The `Nat` is the
uuid counter, advanced exactly when a uuid is drawn. -/
def v3MigrateItem (item : LegacyItem) (ctr : Nat) : Option NewItem × Nat :=
  match v3ResolveOwner item with
  | none => (none, ctr)
  | some owner =>
      let tc : String × Nat :=
        match item.transaction_id with
        | some t => if t = "" then (uuidName ctr, ctr + 1) else (t, ctr)
        | none => (uuidName ctr, ctr + 1)
      (some
        { member_id := owner
          transaction_id := tc.1
          amount := item.amount.getD 0
          timestamp := v3Timestamp item
          signature_s3_key := item.signature_s3_key
          service_notes := item.service_notes },
        tc.2)

/-- Result of one migrate_fixed_v3 batch run: the new collection, the
`migrated` and `errors` tallies, and the uuid counter afterwards. -/
structure RunResult where
  coll : List NewItem
  migrated : Nat
  errors : Nat
  ctr : Nat
  deriving Repr, DecidableEq

/-- The migrate_fixed_v3 batch loop (src/migrate_fixed_v3.py lines
102-165) over a scanned legacy collection, starting from a given state
of the new collection and uuid counter: each item is normalized and
upserted, a failed item only increments the error counter. -/
def v3MigrateRun (legacy : List LegacyItem) (coll : List NewItem) (ctr : Nat) :
    RunResult :=
  match legacy with
  | [] => ⟨coll, 0, 0, ctr⟩
  | item :: rest =>
      match v3MigrateItem item ctr with
      | (some it, ctr') =>
          let r := v3MigrateRun rest (putNewItem coll it) ctr'
          ⟨r.coll, r.migrated + 1, r.errors, r.ctr⟩
      | (none, ctr') =>
          let r := v3MigrateRun rest coll ctr'
          ⟨r.coll, r.migrated, r.errors + 1, r.ctr⟩

/-- The list of composite keys of a new-schema collection. -/
def keysOf (coll : List NewItem) : List (String × String) :=
  coll.map itemKey

/-- A DynamoDB attribute value as far as the claims need: a string, a
number, or an explicit `NULL` (what boto3 writes for Python `None`). -/
inductive AttrVal
  | s (v : String)
  | n (v : Rat)
  | null
  deriving Repr, DecidableEq

/-- The attribute value boto3 serializes for an optional argument:
`NULL` when the caller passed `None`. -/
def optAttr (v : Option String) : AttrVal :=
  match v with
  | some x => .s x
  | none => .null

/-- The raw item dict `AWSClient.add_transaction` passes to `put_item`
(src/aws_utils.py lines 162-169): all six attributes are always
present, `signature_s3_key` and `service_notes` as explicit `NULL`
when the caller passed `None`. -/
def add_transaction_item (tid member_id : String) (amount : Rat) (ts : String)
    (signature_key service_notes : Option String) : List (String × AttrVal) :=
  [("transaction_id", .s tid),
   ("member_id", .s member_id),
   ("amount", .n amount),
   ("timestamp", .s ts),
   ("signature_s3_key", optAttr signature_key),
   ("service_notes", optAttr service_notes)]

/-- The `new_item` dict built by migrate_fixed_v3 (lines 141-148)
before the `None`-stripping comprehension: the two optional fields hold
Python `None` (`Option.none`) when absent from the legacy item. -/
def v3RawItem (it : NewItem) : List (String × Option AttrVal) :=
  [("member_id", some (.s it.member_id)),
   ("transaction_id", some (.s it.transaction_id)),
   ("amount", some (.n it.amount)),
   ("timestamp", some (.s it.timestamp)),
   ("signature_s3_key", it.signature_s3_key.map AttrVal.s),
   ("service_notes", it.service_notes.map AttrVal.s)]

/-- The dict migrate_fixed_v3 actually writes (line 151):
`{k: v for k, v in new_item.items() if v is not None}`. -/
def v3WrittenItem (it : NewItem) : List (String × AttrVal) :=
  (v3RawItem it).filterMap (fun p => p.2.map (fun v => (p.1, v)))

/-- Lookup of an attribute in a scanned legacy dict
(Python `item.get(k)`). -/
def dictGet (item : List (String × AttrVal)) (k : String) : Option AttrVal :=
  (item.find? (fun p => p.1 == k)).map (fun p => p.2)

/-- Python truthiness of `item.get(k)`: `None`, `NULL`, the empty
string and the number `0` are falsy. -/
def truthyAttr (v : Option AttrVal) : Bool :=
  match v with
  | none => false
  | some .null => false
  | some (.s x) => !(x = "")
  | some (.n q) => !(q = 0)

/-- One item of the migrate_fixed_v2 loop (src/migrate_fixed_v2.py
lines 108-155): the owner is read from the attribute literally named
`membe...` (line 113); when that value is falsy the item is counted as
an error and skipped, otherwise it is migrated. -/
def v2ItemMigrated (item : List (String × AttrVal)) : Bool :=
  truthyAttr (dictGet item "membe...")

/-- The `(migrated, errors)` tallies of a migrate_fixed_v2 run over a
scanned legacy collection. -/
def v2MigrateCounts (legacy : List (List (String × AttrVal))) : Nat × Nat :=
  match legacy with
  | [] => (0, 0)
  | item :: rest =>
      let r := v2MigrateCounts rest
      if v2ItemMigrated item then (r.1 + 1, r.2) else (r.1, r.2 + 1)

end SpaMgt

namespace SpaMgt

theorem lookupMember_card (ms : List Member) (c : String) (m : Member)
    (h : lookupMember ms c = some m) : m.card_id = c := by
  have h2 := List.find?_some h
  simpa using h2

theorem find?_map_replace (m : Member) :
    ∀ ms : List Member, ms.any (fun x => x.card_id == m.card_id) = true →
      (ms.map (fun x => if x.card_id == m.card_id then m else x)).find?
        (fun x => x.card_id == m.card_id) = some m := by
  intro ms
  induction ms with
  | nil => intro h; simp at h
  | cons x xs ih =>
    intro h
    simp only [List.map_cons]
    by_cases hx : (x.card_id == m.card_id) = true
    · rw [if_pos hx, List.find?_cons_of_pos]
      simp
    · rw [if_neg hx, List.find?_cons_of_neg]
      · apply ih
        simp only [List.any_cons, hx, Bool.false_or] at h
        exact h
      · exact hx

theorem lookupMember_putMember_self (ms : List Member) (m : Member) :
    lookupMember (putMember ms m) m.card_id = some m := by
  unfold putMember lookupMember
  by_cases h : ms.any (fun x => x.card_id == m.card_id) = true
  · rw [if_pos h]
    exact find?_map_replace m ms h
  · rw [if_neg h]
    rw [List.find?_append]
    have hnone : ms.find? (fun x => x.card_id == m.card_id) = none := by
      rw [List.find?_eq_none]
      intro a ha
      intro hpa
      exact h (List.any_eq_true.mpr ⟨a, ha, hpa⟩)
    rw [hnone]
    simp

theorem ownerSum_append (t1 t2 : List Txn) (c : String) :
    ownerSum (t1 ++ t2) c = ownerSum t1 c + ownerSum t2 c := by
  simp [ownerSum, List.filter_append]

theorem ownerSum_nil (c : String) : ownerSum [] c = 0 := by
  simp [ownerSum]

theorem ownerSum_eq_zero (txns : List Txn) (c : String)
    (h : ∀ t ∈ txns, t.member_id ≠ c) : ownerSum txns c = 0 := by
  unfold ownerSum
  have hfil : txns.filter (fun t => t.member_id == c) = [] := by
    rw [List.filter_eq_nil_iff]
    intro t ht
    simpa using h t ht
  rw [hfil]
  simp

/-- C3: the zero-amount guard of the transaction form rejects the
submission with `ZeroAmount` and leaves the store untouched: no
transaction record is written and no balance changes. -/
theorem transaction_form_zero_amount (s : Store) (card : String)
    (sig notes : Option String) :
    transaction_form s card 0 sig notes = (.error .ZeroAmount, s) := by
  simp [transaction_form]

/-- C4 counterexample: creating a member with initial balance 0
appends a transaction (of amount 0) anyway — the handler has no
`initial_balance != 0` guard. -/
theorem add_member_form_zero_appends :
    (add_member_form false emptyStore "c1" "n" "d" 0).toOption.map
        (fun s => s.txns.length) = some 1 := by
  rfl

/-- C4 amended: every successful `add_member_form` call appends exactly
one transaction, with `amount = initial_balance` and notes 初始充值
("initial top-up"), regardless of whether the initial balance is 0. -/
theorem add_member_form_appends_topup (getFails : Bool) (s : Store)
    (card name date : String) (b : Rat) (s' : Store)
    (h : add_member_form getFails s card name date b = .ok s') :
    s'.txns = s.txns ++ [⟨uuidName s.nextId, card, b, nowString, none, some "初始充值"⟩] := by
  unfold add_member_form at h
  split at h
  · exact absurd h (by simp)
  · split at h
    · exact absurd h (by simp)
    · simp only [Except.ok.injEq] at h
      subst h
      rfl

/-- Witness for the amended C4 at a concrete input. -/
theorem add_member_form_appends_topup_witness :
    (⟨[⟨"c1", "n", "d", 0, nowString⟩],
      [⟨uuidName 0, "c1", 0, nowString, none, some "初始充值"⟩], 1⟩ : Store).txns
      = emptyStore.txns ++ [⟨uuidName 0, "c1", 0, nowString, none, some "初始充值"⟩] :=
  add_member_form_appends_topup false emptyStore "c1" "n" "d" 0 _ rfl

/-- C5 counterexample: submitting a transaction for an owner with no
member record does not fail with `UnknownMember` (no such check
exists) and does write a transaction record. -/
theorem transaction_form_unknown_owner_writes :
    (transaction_form emptyStore "m1" 5 none none).1 = .error .BalanceUpdateFailed ∧
    LedgerError.BalanceUpdateFailed ≠ LedgerError.UnknownMember ∧
    (transaction_form emptyStore "m1" 5 none none).2.txns.length = 1 := by
  refine ⟨rfl, by decide, rfl⟩

/-- C5 amended: for an owner with no member record and a nonzero
amount, the handler writes the transaction record, then the balance
update fails (`BalanceUpdateFailed`), leaving the member collection
unchanged and the orphan transaction persisted. -/
theorem transaction_form_unknown_owner (s : Store) (card : String) (a : Rat)
    (sig notes : Option String) (ha : a ≠ 0)
    (hm : lookupMember s.members card = none) :
    (transaction_form s card a sig notes).1 = .error .BalanceUpdateFailed ∧
    (transaction_form s card a sig notes).2.members = s.members ∧
    (transaction_form s card a sig notes).2.txns
      = s.txns ++ [⟨uuidName s.nextId, card, a, nowString, sig, notes⟩] := by
  unfold transaction_form add_transaction update_member_balance
  rw [if_neg ha]
  simp only [hm]
  simp

/-- Witness for the amended C5 at a concrete input. -/
theorem transaction_form_unknown_owner_witness :
    (transaction_form emptyStore "m1" 5 none none).1 = .error .BalanceUpdateFailed ∧
    (transaction_form emptyStore "m1" 5 none none).2.members = emptyStore.members ∧
    (transaction_form emptyStore "m1" 5 none none).2.txns
      = emptyStore.txns ++ [⟨uuidName 0, "m1", 5, nowString, none, none⟩] :=
  transaction_form_unknown_owner emptyStore "m1" 5 none none (by decide) rfl

/-- C6 failing input: for a member `m1` with one transaction, the
delete cascade removes the member record but then raises
`AttributeError` (the `AWSClient` class defines no
`delete_transaction`), so the member's transactions survive and the
subsequent owner query is not empty. -/
theorem confirm_delete_leaves_orphans :
    confirm_delete ⟨[⟨"m1", "n", "d", 70, nowString⟩],
        [⟨"t1", "m1", 70, nowString, none, none⟩], 1⟩ "m1"
      = .attributeError ⟨[], [⟨"t1", "m1", 70, nowString, none, none⟩], 1⟩ ∧
    get_member_transactions ⟨[], [⟨"t1", "m1", 70, nowString, none, none⟩], 1⟩ "m1" ≠ [] := by
  constructor
  · rfl
  · decide

/-- C8: `get_member` collapses "member absent" and "store read failed"
into the same `none` result; consequently a member-creation attempt
whose duplicate-check read fails passes the check and the upsert
`put_item` silently overwrites the existing member record instead of
failing with `DuplicateMember`. -/
theorem get_member_failure_overwrites (s : Store) (card name date : String)
    (b : Rat) (m : Member) :
    get_member s true card = none ∧
    (lookupMember s.members card = none → get_member s false card = none) ∧
    (lookupMember s.members card = some m → card ≠ "" → name ≠ "" →
      ∃ s', add_member_form true s card name date b = .ok s' ∧
        lookupMember s'.members card = some ⟨card, name, date, b, nowString⟩) := by
  refine ⟨rfl, ?_, ?_⟩
  · intro h
    simp [get_member, h]
  · intro hm hc hn
    refine ⟨(add_transaction (add_member s card name date b) card b none
      (some "初始充值")).2, ?_, ?_⟩
    · unfold add_member_form
      rw [if_neg (by simp [hc, hn])]
      rfl
    · show lookupMember (putMember s.members ⟨card, name, date, b, nowString⟩) card
        = some ⟨card, name, date, b, nowString⟩
      exact lookupMember_putMember_self s.members ⟨card, name, date, b, nowString⟩

/-- Witness for C8: a store holding member `c` whose duplicate-check
read fails; the creation overwrites the old record. -/
theorem get_member_failure_overwrites_witness :
    ∃ s', add_member_form true ⟨[⟨"c", "old", "od", 7, nowString⟩], [], 0⟩
        "c" "new" "nd" 1 = .ok s' ∧
      lookupMember s'.members "c" = some ⟨"c", "new", "nd", 1, nowString⟩ :=
  (get_member_failure_overwrites ⟨[⟨"c", "old", "od", 7, nowString⟩], [], 0⟩
    "c" "new" "nd" 1 ⟨"c", "old", "od", 7, nowString⟩).2.2 rfl
    (by decide) (by decide)

/-- C9: migrate_fixed_v2 reads the owner from the attribute literally
named `membe...`; a run over legacy items none of which carries that
attribute migrates nothing and counts every item as an error. -/
theorem v2_migrates_nothing (legacy : List (List (String × AttrVal)))
    (h : ∀ item ∈ legacy, dictGet item "membe..." = none) :
    v2MigrateCounts legacy = (0, legacy.length) := by
  induction legacy with
  | nil => rfl
  | cons item rest ih =>
    have hitem : v2ItemMigrated item = false := by
      simp [v2ItemMigrated, h item (by simp), truthyAttr]
    simp only [v2MigrateCounts, hitem, if_neg]
    rw [ih (fun it hit => h it (by simp [hit]))]
    simp

/-- Witness for C9: one well-formed legacy item storing its owner under
`member_id` is skipped and counted as an error. -/
theorem v2_migrates_nothing_witness :
    v2MigrateCounts [[("member_id", .s "m1"), ("transaction_id", .s "t1"),
      ("amount", .n 5)]] = (0, 1) :=
  v2_migrates_nothing [[("member_id", .s "m1"), ("transaction_id", .s "t1"),
    ("amount", .n 5)]] (by decide)

/-- C10: the live write path always persists `signature_s3_key` and
`service_notes` (as explicit `NULL` when the caller passed `None`),
whereas migrate_fixed_v3 strips `None`-valued fields, so a written
migrated item never holds a `NULL` attribute value. -/
theorem add_transaction_persists_nulls (tid mid : String) (amount : Rat)
    (ts : String) (sig notes : Option String) (it : NewItem) :
    ("signature_s3_key", optAttr sig) ∈ add_transaction_item tid mid amount ts sig notes ∧
    ("service_notes", optAttr notes) ∈ add_transaction_item tid mid amount ts sig notes ∧
    optAttr none = AttrVal.null ∧
    (v3WrittenItem it).all (fun p => !(p.2 == AttrVal.null)) = true := by
  refine ⟨by simp [add_transaction_item], by simp [add_transaction_item], rfl, ?_⟩
  obtain ⟨a, b, c, d, sig', notes'⟩ := it
  cases sig' <;> cases notes' <;> simp [v3WrittenItem, v3RawItem]

/-- C7 counterexample: a legacy item whose `member_id` attribute is
present but the empty string keeps `""` as its owner id — the code
tests `member_id is None`, not emptiness — even though its signature
key follows the `signatures/<owner_id>/<blob_name>` convention, where
the claim's resolution order would give owner `"00042"`. -/
theorem v3ResolveOwner_empty_field_kept :
    v3ResolveOwner ⟨some "", some "t1", some (-50), none,
        some "signatures/00042/sig.png", none⟩ = some "" ∧
    ("" : String) ≠ "00042" := by
  refine ⟨rfl, by decide⟩

/-- C7 amended: owner resolution order of migrate_fixed_v3: (a) any
non-`None` `member_id` attribute is kept, even when empty; (b)
otherwise, a truthy signature key containing `signatures/` contributes
its second `/`-separated segment (which is `<owner_id>` for keys of
the form `signatures/<owner_id>/<blob_name>`); (c) otherwise the
placeholder `unknown_` plus the first 8 characters of
`transaction_id`, the item erroring out when `transaction_id` is also
absent. -/
theorem v3ResolveOwner_order (item : LegacyItem) :
    (∀ m, item.member_id = some m → v3ResolveOwner item = some m) ∧
    (item.member_id = none → ∀ k, item.signature_s3_key = some k → k ≠ "" →
      hasSignaturesSeg k = true → (pySplit k slash).length ≥ 2 →
      v3ResolveOwner item = some ((pySplit k slash).getD 1 "")) ∧
    (item.member_id = none → ∀ k, item.signature_s3_key = some k →
      (k = "" ∨ hasSignaturesSeg k = false) → ∀ t, item.transaction_id = some t →
      v3ResolveOwner item = some ("unknown_" ++ t.take 8)) ∧
    (item.member_id = none → item.signature_s3_key = none →
      ∀ t, item.transaction_id = some t →
      v3ResolveOwner item = some ("unknown_" ++ t.take 8)) ∧
    (item.member_id = none →
      (item.signature_s3_key = none ∨
        ∃ k, item.signature_s3_key = some k ∧ (k = "" ∨ hasSignaturesSeg k = false)) →
      item.transaction_id = none → v3ResolveOwner item = none) := by
  obtain ⟨mid, tid, am, ts, sig, sn⟩ := item
  refine ⟨?_, ?_, ?_, ?_, ?_⟩
  · intro m hm
    subst hm
    rfl
  · intro hm k hk hne hseg hlen
    subst hm
    subst hk
    simp only [v3ResolveOwner]
    rw [if_pos ⟨hne, hseg⟩, if_pos hlen]
  · intro hm k hk hbad t ht
    subst hm
    subst hk
    subst ht
    simp only [v3ResolveOwner]
    rw [if_neg]
    rintro ⟨hne, hseg⟩
    rcases hbad with h | h
    · exact hne h
    · rw [hseg] at h
      exact absurd h (by decide)
  · intro hm hk t ht
    subst hm
    subst hk
    subst ht
    rfl
  · intro hm hsig htid
    subst hm
    subst htid
    rcases hsig with h | ⟨k, hk, hbad⟩
    · subst h
      rfl
    · subst hk
      simp only [v3ResolveOwner]
      rw [if_neg]
      rintro ⟨hne, hseg⟩
      rcases hbad with h | h
      · exact hne h
      · rw [hseg] at h
        exact absurd h (by decide)

/-- Witness for the amended C7: the spec's recovery scenario — no
`member_id`, signature key `signatures/00042/sig.png` — resolves to
owner `00042`. -/
theorem v3ResolveOwner_order_witness :
    v3ResolveOwner ⟨none, some "t1", some (-50), none,
        some "signatures/00042/sig.png", none⟩ = some "00042" :=
  (v3ResolveOwner_order ⟨none, some "t1", some (-50), none,
      some "signatures/00042/sig.png", none⟩).2.1 rfl
    "signatures/00042/sig.png" rfl (by decide) (by decide) (by decide)

end SpaMgt

namespace SpaMgt

theorem transaction_form_ok (s : Store) (card : String) (a : Rat) (m : Member)
    (ha : a ≠ 0) (hm : lookupMember s.members card = some m) :
    transaction_form s card a none none =
      (.ok (m.balance + a),
       ⟨putMember s.members { m with balance := m.balance + a },
        s.txns ++ [⟨uuidName s.nextId, card, a, nowString, none, none⟩],
        s.nextId + 1⟩) := by
  unfold transaction_form add_transaction update_member_balance
  rw [if_neg ha]
  simp only [hm]

theorem applyAllOk_balance (card : String) :
    ∀ (amounts : List Rat) (s : Store) (m : Member),
      (∀ a ∈ amounts, a ≠ 0) → lookupMember s.members card = some m →
      ∃ sf mf, applyAllOk s card amounts = some sf ∧
        lookupMember sf.members card = some mf ∧
        mf.balance = m.balance + amounts.sum ∧
        ownerSum sf.txns card = ownerSum s.txns card + amounts.sum := by
  intro amounts
  induction amounts with
  | nil =>
    intro s m h hm
    exact ⟨s, m, rfl, hm, by simp, by simp⟩
  | cons a rest ih =>
    intro s m h hm
    have ha : a ≠ 0 := h a (by simp)
    have hcard : m.card_id = card := lookupMember_card s.members card m hm
    subst hcard
    have hstep := transaction_form_ok s m.card_id a m ha hm
    have hm' : lookupMember
        (putMember s.members { m with balance := m.balance + a }) m.card_id
        = some { m with balance := m.balance + a } :=
      lookupMember_putMember_self s.members { m with balance := m.balance + a }
    obtain ⟨sf, mf, h1, h2, h3, h4⟩ :=
      ih ⟨putMember s.members { m with balance := m.balance + a },
          s.txns ++ [⟨uuidName s.nextId, m.card_id, a, nowString, none, none⟩],
          s.nextId + 1⟩
        { m with balance := m.balance + a }
        (fun x hx => h x (by simp [hx])) hm'
    refine ⟨sf, mf, ?_, h2, ?_, ?_⟩
    · show applyAllOk s m.card_id (a :: rest) = some sf
      unfold applyAllOk
      rw [hstep]
      exact h1
    · rw [h3]
      simp only [List.sum_cons]
      ring
    · have h4' : ownerSum sf.txns m.card_id
          = ownerSum (s.txns ++ [⟨uuidName s.nextId, m.card_id, a, nowString, none, none⟩])
              m.card_id + rest.sum := h4
      rw [ownerSum_append] at h4'
      have hsingle : ownerSum [⟨uuidName s.nextId, m.card_id, a, nowString, none, none⟩]
          m.card_id = a := by
        simp [ownerSum]
      rw [hsingle] at h4'
      rw [h4']
      simp only [List.sum_cons]
      ring

/-- C1: on a fresh member created with initial balance B, after any
sequence of successful transaction-form submissions executed
sequentially, the stored balance equals B plus the sum of the applied
amounts, and equals the sum of the amounts of all transactions owned
by that member (the initial top-up transaction included). -/
theorem ledger_balance_invariant (s0 : Store) (card name date : String)
    (B : Rat) (amounts : List Rat)
    (hc : card ≠ "") (hn : name ≠ "")
    (hfresh : lookupMember s0.members card = none)
    (htx : ∀ t ∈ s0.txns, t.member_id ≠ card)
    (hnz : ∀ a ∈ amounts, a ≠ 0) :
    ∃ s1 sf m, add_member_form false s0 card name date B = .ok s1 ∧
      applyAllOk s1 card amounts = some sf ∧
      lookupMember sf.members card = some m ∧
      m.balance = B + amounts.sum ∧
      m.balance = ownerSum sf.txns card := by
  have hget : get_member s0 false card = none := by
    simp [get_member, hfresh]
  have hform : add_member_form false s0 card name date B
      = .ok ⟨putMember s0.members ⟨card, name, date, B, nowString⟩,
             s0.txns ++ [⟨uuidName s0.nextId, card, B, nowString, none, some "初始充值"⟩],
             s0.nextId + 1⟩ := by
    unfold add_member_form
    rw [if_neg (by simp [hc, hn]), hget]
    rfl
  have hm1 : lookupMember (putMember s0.members ⟨card, name, date, B, nowString⟩) card
      = some ⟨card, name, date, B, nowString⟩ :=
    lookupMember_putMember_self s0.members ⟨card, name, date, B, nowString⟩
  obtain ⟨sf, mf, h1, h2, h3, h4⟩ :=
    applyAllOk_balance card amounts
      ⟨putMember s0.members ⟨card, name, date, B, nowString⟩,
       s0.txns ++ [⟨uuidName s0.nextId, card, B, nowString, none, some "初始充值"⟩],
       s0.nextId + 1⟩
      ⟨card, name, date, B, nowString⟩ hnz hm1
  refine ⟨_, sf, mf, hform, h1, h2, ?_, ?_⟩
  · simpa using h3
  · have h4' : ownerSum sf.txns card
        = ownerSum (s0.txns ++ [⟨uuidName s0.nextId, card, B, nowString, none, some "初始充值"⟩])
            card + amounts.sum := h4
    have hsingle : ownerSum [⟨uuidName s0.nextId, card, B, nowString, none, some "初始充值"⟩]
        card = B := by
      simp [ownerSum]
    rw [ownerSum_append, ownerSum_eq_zero s0.txns card htx, hsingle] at h4'
    rw [h4']
    simpa using h3

/-- Witness for C1: member M1 created with balance 100 and one debit
of 30 ends with stored balance 70 equal to the ledger sum. -/
theorem ledger_balance_invariant_witness :
    ∃ s1 sf m, add_member_form false emptyStore "M1" "n" "d" 100 = .ok s1 ∧
      applyAllOk s1 "M1" [-30] = some sf ∧
      lookupMember sf.members "M1" = some m ∧
      m.balance = 100 + ([-30] : List Rat).sum ∧
      m.balance = ownerSum sf.txns "M1" :=
  ledger_balance_invariant emptyStore "M1" "n" "d" 100 [-30]
    (by decide) (by decide) rfl (by decide) (by decide)

end SpaMgt

namespace SpaMgt

theorem keysOf_length (coll : List NewItem) : (keysOf coll).length = coll.length := by
  simp [keysOf]

theorem any_key_iff (coll : List NewItem) (it : NewItem) :
    coll.any (fun x => itemKey x == itemKey it) = true ↔ itemKey it ∈ keysOf coll := by
  rw [List.any_eq_true]
  constructor
  · rintro ⟨x, hx, hbeq⟩
    exact List.mem_map.mpr ⟨x, hx, beq_iff_eq.mp hbeq⟩
  · rintro hmem
    obtain ⟨x, hx, hkey⟩ := List.mem_map.mp hmem
    exact ⟨x, hx, beq_iff_eq.mpr hkey⟩

theorem keysOf_putNewItem_mem (coll : List NewItem) (it : NewItem)
    (h : itemKey it ∈ keysOf coll) :
    keysOf (putNewItem coll it) = keysOf coll := by
  unfold putNewItem
  rw [if_pos ((any_key_iff coll it).mpr h)]
  unfold keysOf
  rw [List.map_map]
  apply List.map_congr_left
  intro x hx
  by_cases hxk : (itemKey x == itemKey it) = true
  · simp only [Function.comp_apply, if_pos hxk]
    exact (beq_iff_eq.mp hxk).symm
  · simp only [Function.comp_apply, if_neg hxk]

theorem keysOf_putNewItem_notMem (coll : List NewItem) (it : NewItem)
    (h : itemKey it ∉ keysOf coll) :
    keysOf (putNewItem coll it) = keysOf coll ++ [itemKey it] := by
  unfold putNewItem
  rw [if_neg (fun hc => h ((any_key_iff coll it).mp hc))]
  simp [keysOf]

theorem mem_keysOf_putNewItem (coll : List NewItem) (it : NewItem)
    (k : String × String) (h : k ∈ keysOf coll) :
    k ∈ keysOf (putNewItem coll it) := by
  by_cases hmem : itemKey it ∈ keysOf coll
  · rw [keysOf_putNewItem_mem coll it hmem]
    exact h
  · rw [keysOf_putNewItem_notMem coll it hmem]
    exact List.mem_append_left _ h

theorem itemKey_mem_putNewItem (coll : List NewItem) (it : NewItem) :
    itemKey it ∈ keysOf (putNewItem coll it) := by
  by_cases hmem : itemKey it ∈ keysOf coll
  · rw [keysOf_putNewItem_mem coll it hmem]
    exact hmem
  · rw [keysOf_putNewItem_notMem coll it hmem]
    simp

theorem nodup_keysOf_putNewItem (coll : List NewItem) (it : NewItem)
    (h : (keysOf coll).Nodup) : (keysOf (putNewItem coll it)).Nodup := by
  by_cases hmem : itemKey it ∈ keysOf coll
  · rw [keysOf_putNewItem_mem coll it hmem]
    exact h
  · rw [keysOf_putNewItem_notMem coll it hmem]
    simp [List.nodup_append, h, hmem]

theorem mem_keysOf_run (legacy : List LegacyItem) :
    ∀ (coll : List NewItem) (ctr : Nat) (k : String × String),
      k ∈ keysOf coll → k ∈ keysOf (v3MigrateRun legacy coll ctr).coll := by
  induction legacy with
  | nil =>
    intro coll ctr k h
    exact h
  | cons item rest ih =>
    intro coll ctr k h
    simp only [v3MigrateRun]
    rcases hmi : v3MigrateItem item ctr with ⟨oit, ctr2⟩
    cases oit with
    | some it =>
      exact ih (putNewItem coll it) ctr2 k (mem_keysOf_putNewItem coll it k h)
    | none =>
      exact ih coll ctr2 k h

theorem nodup_keysOf_run (legacy : List LegacyItem) :
    ∀ (coll : List NewItem) (ctr : Nat),
      (keysOf coll).Nodup → (keysOf (v3MigrateRun legacy coll ctr).coll).Nodup := by
  induction legacy with
  | nil =>
    intro coll ctr h
    exact h
  | cons item rest ih =>
    intro coll ctr h
    simp only [v3MigrateRun]
    rcases hmi : v3MigrateItem item ctr with ⟨oit, ctr2⟩
    cases oit with
    | some it =>
      exact ih (putNewItem coll it) ctr2 (nodup_keysOf_putNewItem coll it h)
    | none =>
      exact ih coll ctr2 h

end SpaMgt

namespace SpaMgt

theorem v3ResolveOwner_isSome_of_tid (item : LegacyItem) (t : String)
    (ht : item.transaction_id = some t) : (v3ResolveOwner item).isSome = true := by
  obtain ⟨mid, tid, am, tss, sig, sn⟩ := item
  simp only at ht
  subst ht
  cases mid with
  | some m => rfl
  | none =>
    cases sig with
    | none => rfl
    | some k =>
      simp only [v3ResolveOwner]
      split
      · split
        · rfl
        · rfl
      · rfl

theorem v3MigrateItem_tid (item : LegacyItem) (t : String) (ctr : Nat)
    (ht : item.transaction_id = some t) (hne : t ≠ "") :
    ∃ o, v3ResolveOwner item = some o ∧
      v3MigrateItem item ctr =
        (some ⟨o, t, item.amount.getD 0, v3Timestamp item,
          item.signature_s3_key, item.service_notes⟩, ctr) := by
  obtain ⟨o, ho⟩ := Option.isSome_iff_exists.mp (v3ResolveOwner_isSome_of_tid item t ht)
  refine ⟨o, ho, ?_⟩
  simp only [v3MigrateItem, ho, ht, if_neg hne]

end SpaMgt

namespace SpaMgt

theorem run_covers (legacy : List LegacyItem) :
    ∀ (coll : List NewItem) (ctr : Nat),
      (∀ it ∈ legacy, ∃ t, it.transaction_id = some t ∧ t ≠ "") →
      ∀ item ∈ legacy, ∀ o t, v3ResolveOwner item = some o →
        item.transaction_id = some t →
        (o, t) ∈ keysOf (v3MigrateRun legacy coll ctr).coll := by
  induction legacy with
  | nil =>
    intro coll ctr h item hmem
    exact absurd hmem (by simp)
  | cons head rest ih =>
    intro coll ctr h item hmem o t hres htid
    obtain ⟨t0, ht0, hne0⟩ := h head (by simp)
    obtain ⟨o0, hres0, hmi⟩ := v3MigrateItem_tid head t0 ctr ht0 hne0
    simp only [v3MigrateRun, hmi]
    rcases List.mem_cons.mp hmem with rfl | hmem'
    · have ho : o = o0 := by
        rw [hres] at hres0
        exact Option.some_inj.mp hres0
      have htt : t = t0 := by
        rw [htid] at ht0
        exact Option.some_inj.mp ht0
      subst ho
      subst htt
      exact mem_keysOf_run rest (putNewItem coll
          ⟨o, t, item.amount.getD 0, v3Timestamp item,
            item.signature_s3_key, item.service_notes⟩) ctr _
        (itemKey_mem_putNewItem coll _)
    · exact ih (putNewItem coll _) ctr (fun it hit => h it (by simp [hit]))
        item hmem' o t hres htid

theorem run_keys_stable (legacy : List LegacyItem) :
    ∀ (coll : List NewItem) (ctr : Nat),
      (∀ it ∈ legacy, ∃ t, it.transaction_id = some t ∧ t ≠ "") →
      (∀ it ∈ legacy, ∀ o t, v3ResolveOwner it = some o →
        it.transaction_id = some t → (o, t) ∈ keysOf coll) →
      keysOf (v3MigrateRun legacy coll ctr).coll = keysOf coll := by
  induction legacy with
  | nil =>
    intro coll ctr h h2
    rfl
  | cons head rest ih =>
    intro coll ctr h h2
    obtain ⟨t0, ht0, hne0⟩ := h head (by simp)
    obtain ⟨o0, hres0, hmi⟩ := v3MigrateItem_tid head t0 ctr ht0 hne0
    simp only [v3MigrateRun, hmi]
    have hk : itemKey (⟨o0, t0, head.amount.getD 0, v3Timestamp head,
        head.signature_s3_key, head.service_notes⟩ : NewItem) ∈ keysOf coll :=
      h2 head (by simp) o0 t0 hres0 ht0
    have hput : keysOf (putNewItem coll
        ⟨o0, t0, head.amount.getD 0, v3Timestamp head,
          head.signature_s3_key, head.service_notes⟩) = keysOf coll :=
      keysOf_putNewItem_mem coll _ hk
    rw [ih (putNewItem coll _) ctr (fun it hit => h it (by simp [hit]))
        (fun it hit o t hr htt => by
          rw [hput]
          exact h2 it (by simp [hit]) o t hr htt),
      hput]

/-- C2 amended: over a legacy collection in which every item carries a
truthy `transaction_id`, running migrate_fixed_v3 a second time leaves
the item count of the new collection equal to a single run's and its
`(owner_id, transaction_id)` keys free of duplicates — the second run
re-upserts the same composite keys.  Items lacking `transaction_id`
receive a freshly generated uuid on each run and are excluded from the
hypothesis. -/
theorem v3_rerun_idempotent_with_tids (legacy : List LegacyItem) (c0 c1 : Nat)
    (h : ∀ it ∈ legacy, ∃ t, it.transaction_id = some t ∧ t ≠ "") :
    (v3MigrateRun legacy (v3MigrateRun legacy [] c0).coll c1).coll.length
      = (v3MigrateRun legacy [] c0).coll.length ∧
    (keysOf (v3MigrateRun legacy (v3MigrateRun legacy [] c0).coll c1).coll).Nodup := by
  have hcover : ∀ it ∈ legacy, ∀ o t, v3ResolveOwner it = some o →
      it.transaction_id = some t →
      (o, t) ∈ keysOf (v3MigrateRun legacy [] c0).coll :=
    fun it hit o t hr htt => run_covers legacy [] c0 h it hit o t hr htt
  have hstable := run_keys_stable legacy (v3MigrateRun legacy [] c0).coll c1 h hcover
  constructor
  · have hlen := congrArg List.length hstable
    rw [keysOf_length, keysOf_length] at hlen
    exact hlen
  · rw [hstable]
    exact nodup_keysOf_run legacy [] c0 (by simp [keysOf])

/-- Witness for the amended C2 at a one-item legacy collection whose
item has a transaction id. -/
theorem v3_rerun_idempotent_with_tids_witness :
    (v3MigrateRun [⟨some "m", some "t1", some 1, none, none, none⟩]
        (v3MigrateRun [⟨some "m", some "t1", some 1, none, none, none⟩] [] 0).coll 0).coll.length
      = (v3MigrateRun [⟨some "m", some "t1", some 1, none, none, none⟩] [] 0).coll.length ∧
    (keysOf (v3MigrateRun [⟨some "m", some "t1", some 1, none, none, none⟩]
        (v3MigrateRun [⟨some "m", some "t1", some 1, none, none, none⟩] [] 0).coll 0).coll).Nodup :=
  v3_rerun_idempotent_with_tids [⟨some "m", some "t1", some 1, none, none, none⟩] 0 0
    (by simp)

/-- C2 counterexample: one legacy item with an owner but no
`transaction_id` is written under a fresh uuid key on every run, so a
second run over the same legacy collection doubles the item count
instead of reproducing the single-run count. -/
theorem v3_rerun_duplicates_without_tid :
    (v3MigrateRun [⟨some "m", none, some 1, none, none, none⟩] [] 0).coll.length = 1 ∧
    (v3MigrateRun [⟨some "m", none, some 1, none, none, none⟩]
        (v3MigrateRun [⟨some "m", none, some 1, none, none, none⟩] [] 0).coll
        (v3MigrateRun [⟨some "m", none, some 1, none, none, none⟩] [] 0).ctr).coll.length = 2 := by
  refine ⟨rfl, rfl⟩

end SpaMgt
